import Mathlib

/-!
Verification of the boja repository's hyperparameter-search core and
prediction/visualization helpers, shallowly embedded in Lean 4.

Sources embedded:
 - src/vision/train/hparam_search.py (`main`: the trial loop, metric
   aggregation and reporting)
 - src/vision/predict/predict_spin.py (`main`, `display_images`: label
   handling and detection filtering)
 - src/vision/train/visualize.py (`main`: label handling and detection
   filtering)

The distribution/sampling primitives live in the repository module
`vision/train/_hparams.py`, which is not among the provided source files;
those definitions are modelled from the spec (sections 3 and 4.1-4.2) and
are marked `Modelled from the spec:` in their doc comments.
-/

namespace Boja

/-! ## Hyperparameter distributions

Modelled from the spec: `_hparams.py` is not among the provided sources.
Spec section 3 defines the variants (under the spec names Uniform,
LogUniform, LogUniformOffset, IntUniform, Choice); the constructor names
below follow the source call sites in hparam_search.py lines 93-133
(RandomUniform, RandomExponential, RandomExponentialDiff, RandomInt,
RandomHPChoices). A Choice alternative is either a literal value or a
nested distribution. -/

mutual

/-- Modelled from the spec: a sampleable value-space primitive
(spec section 3, "Distribution"). -/
inductive HPDist : Type where
  | randomUniform (lo hi : ℝ)
  | randomExponential (minVal maxVal : ℝ)
  | randomExponentialDiff (scale minVal maxVal : ℝ)
  | randomInt (lo hi : ℤ)
  | randomHPChoices (alts : List HPEntry)

/-- Modelled from the spec: one alternative of a Choice, either a literal
value or a nested Distribution (spec section 3, "Choice(alternatives)"). -/
inductive HPEntry : Type where
  | lit (v : ℝ)
  | dist (d : HPDist)

end

mutual

/-- Modelled from the spec: `IsSample d x` holds iff `x` is a possible
result of `d.sample()` per spec section 3:
uniform draws lie in [lo, hi]; LogUniform yields exp(u) for
u ~ uniform(log min, log max); LogUniformOffset yields scale - exp(u);
IntUniform yields an integer in [lo, hi]; Choice picks an alternative and
resolves it recursively. -/
inductive IsSample : HPDist → ℝ → Prop where
  | uniform {lo hi x : ℝ} : lo ≤ x → x ≤ hi →
      IsSample (.randomUniform lo hi) x
  | exponential {lo hi u : ℝ} : Real.log lo ≤ u → u ≤ Real.log hi →
      IsSample (.randomExponential lo hi) (Real.exp u)
  | exponentialDiff {c lo hi u : ℝ} : Real.log lo ≤ u → u ≤ Real.log hi →
      IsSample (.randomExponentialDiff c lo hi) (c - Real.exp u)
  | intUniform {lo hi k : ℤ} : lo ≤ k → k ≤ hi →
      IsSample (.randomInt lo hi) (k : ℝ)
  | choice {alts : List HPEntry} {a : HPEntry} {x : ℝ} : a ∈ alts →
      IsEntrySample a x → IsSample (.randomHPChoices alts) x

/-- Modelled from the spec: sampling one Choice alternative — a literal is
returned as-is, a nested distribution is sampled recursively. -/
inductive IsEntrySample : HPEntry → ℝ → Prop where
  | lit {v : ℝ} : IsEntrySample (.lit v) v
  | dist {d : HPDist} {x : ℝ} : IsSample d x → IsEntrySample (.dist d) x

end

/-- A named optimizer kind with its option distributions
(source: `_hparams.Optimizer(name=..., options=...)` as used at
hparam_search.py lines 95-118; spec "HyperparameterSpec"). -/
structure Optimizer where
  name : String
  options : List (String × HPDist)

/-- The lr distribution of the SGD spec:
`RandomExponential(min_val=0.0005, max_val=0.1)` (hparam_search.py
line 98). -/
def sgdLrDist : HPDist := .randomExponential 0.0005 0.1

/-- The momentum distribution of the SGD spec:
`RandomHPChoices([0, RandomExponentialDiff(1.0, 0.01, 0.5)])`
(hparam_search.py lines 99-101). -/
def sgdMomentumDist : HPDist :=
  .randomHPChoices [.lit 0, .dist (.randomExponentialDiff 1.0 0.01 0.5)]

/-- The weight-decay distribution of the SGD spec:
`RandomHPChoices([0, 1e-2, 1e-4])` (hparam_search.py line 102). -/
def sgdWeightDecayDist : HPDist :=
  .randomHPChoices [.lit 0, .lit 1e-2, .lit 1e-4]

/-- The SGD hyperparameter spec exactly as declared at
hparam_search.py lines 95-104. -/
def sgdSpec : Optimizer :=
  { name := "SGD"
    options :=
      [("lr", sgdLrDist),
       ("momentum", sgdMomentumDist),
       ("weight_decay", sgdWeightDecayDist)] }

/-! ## Trial loop (hparam_search.py `main`, lines 144-260)

The external training call `train.train_model` (line 184) is a black box
that either returns a metrics mapping or raises.  Per the source, `main`
catches exactly `RuntimeError` (line 194: log, `continue`) and
`KeyboardInterrupt` (line 197: log, `break`); any other exception
propagates out of the loop and out of `main`.  Each trial's external data
(the wall-clock time, the sampled optimizer kind, the sampled option
values, what the constructed optimizer object reports as its `defaults`
attribute, the sampled scheduler choice, and the training outcome) is
supplied by an environment `env : ℕ → TrialEnv` indexed by trial number. -/

/-- The metrics mapping returned by a normal `train.train_model` call.
Per the external-interface contract (spec section 6) it contains the
per-epoch "average precision" and "average recall" series, which are the
two keys `main` reads (lines 205, 211, 214-217). -/
structure Metrics where
  ap : List ℚ
  ar : List ℚ
deriving DecidableEq

/-- Outcome of the external training call of one trial: a normal return,
or one of the exception classes Python distinguishes at the `except`
clauses of lines 194-199 (`RuntimeError`, `KeyboardInterrupt`, or any
other exception, which `main` does not catch). -/
inductive TrainOutcome : Type where
  | ok (m : Metrics)
  | runtimeError (msg : String)
  | keyboardInterrupt
  | otherError (msg : String)
deriving DecidableEq

/-- A sampled learning-rate scheduler choice: its kind name and the
attribute dict logged at lines 169-181 (`lr_scheduler.__dict__` minus the
`optimizer` entry). In the source the scheduler choice list is `[None]`
(lines 122-133, the StepLR alternative is commented out), so this is never
actually produced; it is kept so the branch at lines 166-181 is embedded. -/
structure SchedInfo where
  name : String
  props : List (String × ℚ)
deriving DecidableEq

/-- Everything external that one trial iteration consumes:
`runTime` = `int(time.time())` (line 148); `optName` = the sampled
optimizer kind's `.name` (line 161); `resolved` = the option values
sampled from the kind's distributions (inside `_hparams`, spec section
4.2); `reportedDefaults` = whatever the constructed optimizer object
reports as `optimizer.defaults` (line 162) — the spec explicitly treats
this self-report as unconstrained ("whatever internal defaults the
constructed object may report"); `sched` = the sampled scheduler choice
(line 165); `outcome` = result of the training call (lines 183-199). -/
structure TrialEnv where
  runTime : ℤ
  optName : String
  resolved : List (String × ℚ)
  reportedDefaults : List (String × ℚ)
  sched : Option SchedInfo
  outcome : TrainOutcome
deriving DecidableEq

/-- Which of the two fixed metric keys a log line reports
(`AVERAGE_PRECISION_STAT_LABEL` / `AVERAGE_RECALL_STAT_LABEL`). -/
inductive StatKey : Type where
  | ap
  | ar
deriving DecidableEq

/-- One message written through `log_and_print` (line 53); each
constructor corresponds to one format string in `main`:
start time (line 150), "Model = %s" (line 153), "optimizer choice: %s"
(line 161), "optimizer properties: %s" (line 162), the scheduler lines
(169-181), "Training failed: %s" (line 195), "User initiated
termination." (line 198) and the two metric lines (201-212). -/
inductive LogMsg : Type where
  | startTime (t : ℤ)
  | modelName (net : String)
  | optimizerChoice (name : String)
  | optimizerProperties (defaults : List (String × ℚ))
  | schedulerChoice (name : String)
  | schedulerProperties (props : List (String × ℚ))
  | trainingFailed (msg : String)
  | userTermination
  | statLine (k : StatKey) (values : List ℚ)
deriving DecidableEq

/-- The mutable session state of `main`: the run-log entries written so
far (each tagged with its trial number, as `log_and_print` does), and the
two insertion-ordered dicts of `stat_totals` (line 144), kept as
association lists `trial index ↦ per-epoch series`. -/
structure SessionState where
  log : List (ℕ × LogMsg)
  apTotals : List (ℕ × List ℚ)
  arTotals : List (ℕ × List ℚ)
deriving DecidableEq

/-- `stat_totals = {AP: {}, AR: {}}` and an empty log, before the loop. -/
def initState : SessionState := ⟨[], [], []⟩

/-- Append one `log_and_print` entry (line 53-56). -/
def logEntry (s : SessionState) (i : ℕ) (msg : LogMsg) : SessionState :=
  { s with log := s.log ++ [(i, msg)] }

/-- How one loop iteration ends: fall through to the next trial
(normal completion or the `continue` of line 196), leave the loop via
the `break` of line 199, or an uncaught exception propagating out. -/
inductive StepResult : Type where
  | next (s : SessionState)
  | stop (s : SessionState)
  | raised (s : SessionState) (msg : String)
deriving DecidableEq

/-- One iteration of the trial loop body (hparam_search.py lines 146-217)
for trial `i`, given that trial's external data `e`. -/
def runTrial (net : String) (e : TrialEnv) (i : ℕ) (s : SessionState) :
    StepResult :=
  let s1 := logEntry s i (.startTime e.runTime)
  let s2 := logEntry s1 i (.modelName net)
  let s3 := logEntry s2 i (.optimizerChoice e.optName)
  let s4 := logEntry s3 i (.optimizerProperties e.reportedDefaults)
  let s5 := match e.sched with
    | none => s4
    | some sch =>
        logEntry (logEntry s4 i (.schedulerChoice sch.name)) i
          (.schedulerProperties sch.props)
  match e.outcome with
  | .runtimeError msg => .next (logEntry s5 i (.trainingFailed msg))
  | .keyboardInterrupt => .stop (logEntry s5 i .userTermination)
  | .otherError msg => .raised s5 msg
  | .ok m =>
      let s6 := logEntry s5 i (.statLine .ap m.ap)
      let s7 := logEntry s6 i (.statLine .ar m.ar)
      .next { s7 with
                apTotals := s7.apTotals ++ [(i, m.ap)],
                arTotals := s7.arTotals ++ [(i, m.ar)] }

/-- How the whole loop ends: normally (falling off the range or via the
cancellation `break`), after which `main` proceeds to reporting, or by an
uncaught exception aborting `main`. -/
inductive SessionRunResult : Type where
  | finished (s : SessionState)
  | aborted (s : SessionState) (msg : String)
deriving DecidableEq

/-- Drive the loop over the remaining trial indices. -/
def runTrialsAux (net : String) (env : ℕ → TrialEnv) :
    List ℕ → SessionState → SessionRunResult
  | [], s => .finished s
  | i :: rest, s =>
      match runTrial net (env i) i s with
      | .next s2 => runTrialsAux net env rest s2
      | .stop s2 => .finished s2
      | .raised s2 msg => .aborted s2 msg

/-- The trial loop `for i in range(args.num_trials)` (line 146) started
from the initial session state. -/
def runSession (net : String) (env : ℕ → TrialEnv) (n : ℕ) :
    SessionRunResult :=
  runTrialsAux net env (List.range n) initState

/-- The state carried by either run result (for statements that hold on
the log whether or not the session aborted). -/
def sessionState : SessionRunResult → SessionState
  | .finished s => s
  | .aborted s _ => s

/-- The report `main` produces after the loop (lines 221-253): one plot
line per `stat_totals` entry for each of the two metrics (lines 224-250,
in dict insertion order), plus the written run log (closed at line 252). -/
structure Report where
  apPlotLines : List (ℕ × List ℚ)
  arPlotLines : List (ℕ × List ℚ)
  logEntries : List (ℕ × LogMsg)
deriving DecidableEq

/-- Reporting step applied to the state the loop ended with. -/
def finalize (s : SessionState) : Report :=
  ⟨s.apTotals, s.arTotals, s.log⟩

/-- The observable result of `main`: `some report` when the loop ended
normally and the reporting step ran, `none` when an uncaught exception
aborted `main` before reporting. -/
def mainResult (net : String) (env : ℕ → TrialEnv) (n : ℕ) :
    Option Report :=
  match runSession net env n with
  | .finished s => some (finalize s)
  | .aborted _ _ => none

/-- True for the outcomes after which the loop proceeds to the next index
(a normal return, or the caught `RuntimeError`); false for the outcomes
that end the loop (`KeyboardInterrupt` via `break`, anything else via an
uncaught exception). -/
def proceedsB : TrainOutcome → Bool
  | .ok _ => true
  | .runtimeError _ => true
  | .keyboardInterrupt => false
  | .otherError _ => false

/-- True exactly for outcomes `main` does not catch (neither a normal
return nor `RuntimeError` nor `KeyboardInterrupt`). -/
def isOtherError : TrainOutcome → Bool
  | .otherError _ => true
  | _ => false

/-! ## Helper lemmas about the trial loop -/

/-- The messages one iteration of the loop body writes for a trial with
external data `e` (read off `runTrial`). -/
def trialMsgs (net : String) (e : TrialEnv) : List LogMsg :=
  [.startTime e.runTime, .modelName net,
   .optimizerChoice e.optName, .optimizerProperties e.reportedDefaults]
  ++ (match e.sched with
      | none => []
      | some sch => [.schedulerChoice sch.name, .schedulerProperties sch.props])
  ++ (match e.outcome with
      | .ok m => [.statLine .ap m.ap, .statLine .ar m.ar]
      | .runtimeError msg => [.trainingFailed msg]
      | .keyboardInterrupt => [.userTermination]
      | .otherError _ => [])

/-- The exact sequence of log entries one iteration of the loop body
appends for trial `i`: each message of `trialMsgs`, tagged with `i`. -/
def trialLog (net : String) (e : TrialEnv) (i : ℕ) : List (ℕ × LogMsg) :=
  (trialMsgs net e).map (fun msg => (i, msg))

lemma trialLog_fst (net : String) (e : TrialEnv) (i : ℕ) :
    ∀ p ∈ trialLog net e i, p.1 = i := by
  intro p hp
  rcases List.mem_map.mp hp with ⟨msg, _, hmsg⟩
  rw [← hmsg]

lemma startTime_mem_trialLog (net : String) (e : TrialEnv) (i : ℕ) :
    (i, LogMsg.startTime e.runTime) ∈ trialLog net e i := by
  simp [trialLog, trialMsgs]

lemma runTrial_ok (net : String) (e : TrialEnv) (i : ℕ) (s : SessionState)
    (m : Metrics) (h : e.outcome = .ok m) :
    runTrial net e i s =
      .next ⟨s.log ++ trialLog net e i,
             s.apTotals ++ [(i, m.ap)], s.arTotals ++ [(i, m.ar)]⟩ := by
  rcases e with ⟨rt, onm, res, rep, sched, out⟩
  simp only [TrialEnv.outcome] at h
  subst h
  cases sched <;> simp [runTrial, trialLog, trialMsgs, logEntry]

lemma runTrial_rte (net : String) (e : TrialEnv) (i : ℕ) (s : SessionState)
    (msg : String) (h : e.outcome = .runtimeError msg) :
    runTrial net e i s =
      .next ⟨s.log ++ trialLog net e i, s.apTotals, s.arTotals⟩ := by
  rcases e with ⟨rt, onm, res, rep, sched, out⟩
  simp only [TrialEnv.outcome] at h
  subst h
  cases sched <;> simp [runTrial, trialLog, trialMsgs, logEntry]

lemma runTrial_kb (net : String) (e : TrialEnv) (i : ℕ) (s : SessionState)
    (h : e.outcome = .keyboardInterrupt) :
    runTrial net e i s =
      .stop ⟨s.log ++ trialLog net e i, s.apTotals, s.arTotals⟩ := by
  rcases e with ⟨rt, onm, res, rep, sched, out⟩
  simp only [TrialEnv.outcome] at h
  subst h
  cases sched <;> simp [runTrial, trialLog, trialMsgs, logEntry]

lemma runTrial_other (net : String) (e : TrialEnv) (i : ℕ) (s : SessionState)
    (msg : String) (h : e.outcome = .otherError msg) :
    runTrial net e i s =
      .raised ⟨s.log ++ trialLog net e i, s.apTotals, s.arTotals⟩ msg := by
  rcases e with ⟨rt, onm, res, rep, sched, out⟩
  simp only [TrialEnv.outcome] at h
  subst h
  cases sched <;> simp [runTrial, trialLog, trialMsgs, logEntry]

/-- Concatenated log entries of the `k` consecutive trials starting at
index `i`. -/
def sessionLogs (net : String) (env : ℕ → TrialEnv) : ℕ → ℕ → List (ℕ × LogMsg)
  | _, 0 => []
  | i, k + 1 => trialLog net (env i) i ++ sessionLogs net env (i + 1) k

/-- The aggregate entries for one metric series (selected by `sel`)
contributed by the `k` consecutive trials starting at index `i`: one
`(index, series)` pair per trial whose training returned normally. -/
def statEntries (sel : Metrics → List ℚ) (env : ℕ → TrialEnv) :
    ℕ → ℕ → List (ℕ × List ℚ)
  | _, 0 => []
  | i, k + 1 =>
      (match (env i).outcome with
       | .ok m => [(i, sel m)]
       | _ => []) ++ statEntries sel env (i + 1) k

/-- Average-precision aggregate entries. -/
def apEntries : (ℕ → TrialEnv) → ℕ → ℕ → List (ℕ × List ℚ) :=
  statEntries Metrics.ap

/-- Average-recall aggregate entries. -/
def arEntries : (ℕ → TrialEnv) → ℕ → ℕ → List (ℕ × List ℚ) :=
  statEntries Metrics.ar

lemma mem_sessionLogs (net : String) (env : ℕ → TrialEnv) :
    ∀ k i p, p ∈ sessionLogs net env i k ↔
      ∃ j, i ≤ j ∧ j < i + k ∧ p ∈ trialLog net (env j) j := by
  intro k
  induction k with
  | zero => intro i p; simp [sessionLogs]; omega
  | succ k ih =>
      intro i p
      simp only [sessionLogs, List.mem_append, ih]
      constructor
      · rintro (hp | ⟨j, hj1, hj2, hp⟩)
        · exact ⟨i, le_refl i, by omega, hp⟩
        · exact ⟨j, by omega, by omega, hp⟩
      · rintro ⟨j, hj1, hj2, hp⟩
        rcases Nat.eq_or_lt_of_le hj1 with h | h
        · exact Or.inl (h ▸ hp)
        · exact Or.inr ⟨j, by omega, by omega, hp⟩

/-- When every outcome in the window proceeds (normal return or caught
`RuntimeError`), the loop runs every index and finishes, appending each
trial's log entries and each completed trial's aggregate entries. -/
lemma aux_proceed (net : String) (env : ℕ → TrialEnv) :
    ∀ k i s, (∀ j, i ≤ j → j < i + k → proceedsB (env j).outcome = true) →
    runTrialsAux net env (List.range' i k) s =
      .finished ⟨s.log ++ sessionLogs net env i k,
                 s.apTotals ++ apEntries env i k,
                 s.arTotals ++ arEntries env i k⟩ := by
  intro k
  induction k with
  | zero => intro i s _; simp [runTrialsAux, sessionLogs, apEntries, arEntries, statEntries]
  | succ k ih =>
      intro i s h
      have hi : proceedsB (env i).outcome = true := h i (le_refl i) (by omega)
      have hrest : ∀ j, i + 1 ≤ j → j < i + 1 + k →
          proceedsB (env j).outcome = true := by
        intro j h1 h2; exact h j (by omega) (by omega)
      show runTrialsAux net env (i :: List.range' (i + 1) k) s = _
      cases hout : (env i).outcome with
      | ok m =>
          rw [runTrialsAux, runTrial_ok net (env i) i s m hout]
          show runTrialsAux net env (List.range' (i + 1) k) _ = _
          rw [ih (i + 1) _ hrest]
          simp [sessionLogs, apEntries, arEntries, statEntries, hout]
      | runtimeError msg =>
          rw [runTrialsAux, runTrial_rte net (env i) i s msg hout]
          show runTrialsAux net env (List.range' (i + 1) k) _ = _
          rw [ih (i + 1) _ hrest]
          simp [sessionLogs, apEntries, arEntries, statEntries, hout]
      | keyboardInterrupt => rw [hout] at hi; simp [proceedsB] at hi
      | otherError msg => rw [hout] at hi; simp [proceedsB] at hi

/-- When every outcome before `t` proceeds and trial `t` raises
`KeyboardInterrupt`, the loop runs trials `i..t`, stops at `t` via
`break`, and finishes with the aggregates of the completed trials
before `t`. -/
lemma aux_stop (net : String) (env : ℕ → TrialEnv) :
    ∀ k i s t, i ≤ t → t < i + k →
    (∀ j, i ≤ j → j < t → proceedsB (env j).outcome = true) →
    (env t).outcome = .keyboardInterrupt →
    runTrialsAux net env (List.range' i k) s =
      .finished ⟨s.log ++ sessionLogs net env i (t - i) ++ trialLog net (env t) t,
                 s.apTotals ++ apEntries env i (t - i),
                 s.arTotals ++ arEntries env i (t - i)⟩ := by
  intro k
  induction k with
  | zero => intro i s t h1 h2; omega
  | succ k ih =>
      intro i s t h1 h2 hpre hkb
      show runTrialsAux net env (i :: List.range' (i + 1) k) s = _
      rcases Nat.eq_or_lt_of_le h1 with heq | hlt
      · subst heq
        rw [runTrialsAux, runTrial_kb net (env i) i s hkb]
        simp [sessionLogs, apEntries, arEntries, statEntries]
      · have hstep : t - i = (t - (i + 1)) + 1 := by omega
        have hi : proceedsB (env i).outcome = true := hpre i (le_refl i) hlt
        have hrest : ∀ j, i + 1 ≤ j → j < t → proceedsB (env j).outcome = true := by
          intro j hj1 hj2; exact hpre j (by omega) hj2
        cases hout : (env i).outcome with
        | ok m =>
            rw [runTrialsAux, runTrial_ok net (env i) i s m hout]
            show runTrialsAux net env (List.range' (i + 1) k) _ = _
            rw [ih (i + 1) _ t (by omega) (by omega) hrest hkb, hstep]
            simp [sessionLogs, apEntries, arEntries, statEntries, hout]
        | runtimeError msg =>
            rw [runTrialsAux, runTrial_rte net (env i) i s msg hout]
            show runTrialsAux net env (List.range' (i + 1) k) _ = _
            rw [ih (i + 1) _ t (by omega) (by omega) hrest hkb, hstep]
            simp [sessionLogs, apEntries, arEntries, statEntries, hout]
        | keyboardInterrupt => rw [hout] at hi; simp [proceedsB] at hi
        | otherError msg => rw [hout] at hi; simp [proceedsB] at hi

/-- When every outcome before `t` proceeds and trial `t` raises an
exception `main` does not catch, the loop aborts at `t` with the
exception propagating; aggregates hold only the completed trials
before `t`. -/
lemma aux_abort (net : String) (env : ℕ → TrialEnv) :
    ∀ k i s t msg, i ≤ t → t < i + k →
    (∀ j, i ≤ j → j < t → proceedsB (env j).outcome = true) →
    (env t).outcome = .otherError msg →
    runTrialsAux net env (List.range' i k) s =
      .aborted ⟨s.log ++ sessionLogs net env i (t - i) ++ trialLog net (env t) t,
                s.apTotals ++ apEntries env i (t - i),
                s.arTotals ++ arEntries env i (t - i)⟩ msg := by
  intro k
  induction k with
  | zero => intro i s t msg h1 h2; omega
  | succ k ih =>
      intro i s t msg h1 h2 hpre herr
      show runTrialsAux net env (i :: List.range' (i + 1) k) s = _
      rcases Nat.eq_or_lt_of_le h1 with heq | hlt
      · subst heq
        rw [runTrialsAux, runTrial_other net (env i) i s msg herr]
        simp [sessionLogs, apEntries, arEntries, statEntries]
      · have hstep : t - i = (t - (i + 1)) + 1 := by omega
        have hi : proceedsB (env i).outcome = true := hpre i (le_refl i) hlt
        have hrest : ∀ j, i + 1 ≤ j → j < t → proceedsB (env j).outcome = true := by
          intro j hj1 hj2; exact hpre j (by omega) hj2
        cases hout : (env i).outcome with
        | ok m =>
            rw [runTrialsAux, runTrial_ok net (env i) i s m hout]
            show runTrialsAux net env (List.range' (i + 1) k) _ = _
            rw [ih (i + 1) _ t msg (by omega) (by omega) hrest herr, hstep]
            simp [sessionLogs, apEntries, arEntries, statEntries, hout]
        | runtimeError m2 =>
            rw [runTrialsAux, runTrial_rte net (env i) i s m2 hout]
            show runTrialsAux net env (List.range' (i + 1) k) _ = _
            rw [ih (i + 1) _ t msg (by omega) (by omega) hrest herr, hstep]
            simp [sessionLogs, apEntries, arEntries, statEntries, hout]
        | keyboardInterrupt => rw [hout] at hi; simp [proceedsB] at hi
        | otherError m2 => rw [hout] at hi; simp [proceedsB] at hi

lemma lookup_cons_eq {β : Type} (a : ℕ) (b : β) (l : List (ℕ × β)) :
    List.lookup a ((a, b) :: l) = some b := by
  simp [List.lookup]

lemma lookup_cons_ne {β : Type} (a a2 : ℕ) (b : β) (l : List (ℕ × β))
    (h : a ≠ a2) : List.lookup a ((a2, b) :: l) = List.lookup a l := by
  have hb : (a == a2) = false := beq_eq_false_iff_ne.mpr h
  simp [List.lookup, hb]

lemma statEntries_succ_ok (sel : Metrics → List ℚ) (env : ℕ → TrialEnv)
    (i k : ℕ) (m0 : Metrics) (h : (env i).outcome = .ok m0) :
    statEntries sel env i (k + 1) =
      (i, sel m0) :: statEntries sel env (i + 1) k := by
  rw [show statEntries sel env i (k + 1) =
      (match (env i).outcome with
       | .ok m => [(i, sel m)]
       | _ => []) ++ statEntries sel env (i + 1) k from rfl, h]
  rfl

lemma statEntries_succ_skip (sel : Metrics → List ℚ) (env : ℕ → TrialEnv)
    (i k : ℕ) (h : ∀ m : Metrics, (env i).outcome ≠ .ok m) :
    statEntries sel env i (k + 1) = statEntries sel env (i + 1) k := by
  rw [show statEntries sel env i (k + 1) =
      (match (env i).outcome with
       | .ok m => [(i, sel m)]
       | _ => []) ++ statEntries sel env (i + 1) k from rfl]
  cases hout : (env i).outcome with
  | ok m => exact absurd hout (h m)
  | runtimeError msg => simp
  | keyboardInterrupt => simp
  | otherError msg => simp

/-- Lookup in the aggregate entries of a window of trials: index `j` is
present with value `v` iff trial `j` lies in the window, its training
returned normally, and `v` is that trial's series for the selected
metric. -/
lemma lookup_statEntries (sel : Metrics → List ℚ) (env : ℕ → TrialEnv) :
    ∀ k i j v, (statEntries sel env i k).lookup j = some v ↔
      ∃ m : Metrics, i ≤ j ∧ j < i + k ∧ (env j).outcome = .ok m ∧ v = sel m := by
  intro k
  induction k with
  | zero =>
      intro i j v
      constructor
      · intro h; simp [statEntries] at h
      · rintro ⟨mm, h1, h2, _, _⟩; omega
  | succ k ih =>
      intro i j v
      by_cases hok : ∃ m0 : Metrics, (env i).outcome = .ok m0
      · rcases hok with ⟨m0, hout⟩
        by_cases hj : j = i
        · subst hj
          rw [statEntries_succ_ok sel env j k m0 hout, lookup_cons_eq]
          constructor
          · intro h
            exact ⟨m0, le_refl j, by omega, hout, (Option.some_inj.mp h).symm⟩
          · rintro ⟨mm, _, _, hm, rfl⟩
            rw [TrainOutcome.ok.inj (hout.symm.trans hm)]
        · rw [statEntries_succ_ok sel env i k m0 hout,
            lookup_cons_ne j i _ _ hj, ih]
          constructor
          · rintro ⟨mm, h1, h2, hm, rfl⟩
            exact ⟨mm, by omega, by omega, hm, rfl⟩
          · rintro ⟨mm, h1, h2, hm, rfl⟩
            refine ⟨mm, by omega, by omega, hm, rfl⟩
      · have hnot : ∀ m : Metrics, (env i).outcome ≠ .ok m := by
          intro m hm; exact hok ⟨m, hm⟩
        rw [statEntries_succ_skip sel env i k hnot, ih]
        constructor
        · rintro ⟨mm, h1, h2, hm, rfl⟩
          exact ⟨mm, by omega, by omega, hm, rfl⟩
        · rintro ⟨mm, h1, h2, hm, rfl⟩
          refine ⟨mm, ?_, by omega, hm, rfl⟩
          rcases Nat.eq_or_lt_of_le h1 with heq | hlt
          · exact absurd (heq ▸ hm) (hnot mm)
          · omega

/-- Lookup is `none` exactly when no in-window trial with that index
completed normally. -/
lemma lookup_statEntries_none (sel : Metrics → List ℚ) (env : ℕ → TrialEnv)
    (k i j : ℕ)
    (h : ∀ m : Metrics, i ≤ j → j < i + k → (env j).outcome ≠ .ok m) :
    (statEntries sel env i k).lookup j = none := by
  cases hl : (statEntries sel env i k).lookup j with
  | none => rfl
  | some v =>
      exfalso
      rcases (lookup_statEntries sel env k i j v).mp hl with ⟨mm, h1, h2, hm, _⟩
      exact h mm h1 h2 hm

/-! ## Claim theorems for the trial loop -/

/-- C7: a session requested with `num_trials = 0` runs zero trials, ends
with the two `stat_totals` maps empty and an empty log, and the reporting
step still runs, producing a report whose two plot-line lists are empty. -/
theorem empty_session_reports (net : String) (env : ℕ → TrialEnv) :
    runSession net env 0 = .finished ⟨[], [], []⟩
    ∧ mainResult net env 0 = some ⟨[], [], []⟩ :=
  ⟨rfl, rfl⟩

/-- C1: if trial `i` raises `RuntimeError` and every other trial returns
normally, the loop logs the failure reason for trial `i` and goes on: the
session finishes (is not aborted), every trial index below `n` is started
(its start-time line is in the log), every other trial's aggregate entry
equals the metrics it returned, and trial `i` contributes no aggregate
entry. -/
theorem trial_failure_isolated (net : String) (env : ℕ → TrialEnv)
    (n i : ℕ) (msg : String) (m : ℕ → Metrics)
    (hi : i < n)
    (hfail : (env i).outcome = .runtimeError msg)
    (hok : ∀ j, j ≠ i → (env j).outcome = .ok (m j)) :
    ∃ s, runSession net env n = .finished s
      ∧ (i, LogMsg.trainingFailed msg) ∈ s.log
      ∧ (∀ j, j < n → (j, LogMsg.startTime (env j).runTime) ∈ s.log)
      ∧ (∀ j, j < n → j ≠ i →
          s.apTotals.lookup j = some (m j).ap
          ∧ s.arTotals.lookup j = some (m j).ar)
      ∧ s.apTotals.lookup i = none ∧ s.arTotals.lookup i = none := by
  have hproc : ∀ j, 0 ≤ j → j < 0 + n → proceedsB (env j).outcome = true := by
    intro j _ _
    by_cases hj : j = i
    · rw [hj, hfail]; rfl
    · rw [hok j hj]; rfl
  have hrun : runSession net env n =
      .finished ⟨sessionLogs net env 0 n, apEntries env 0 n, arEntries env 0 n⟩ := by
    rw [runSession, List.range_eq_range' n, aux_proceed net env n 0 initState hproc]
    simp [initState]
  refine ⟨_, hrun, ?_, ?_, ?_, ?_, ?_⟩
  · exact (mem_sessionLogs net env n 0 _).mpr
      ⟨i, Nat.zero_le i, by omega, by simp [trialLog, trialMsgs, hfail]⟩
  · intro j hj
    exact (mem_sessionLogs net env n 0 _).mpr
      ⟨j, Nat.zero_le j, by omega, startTime_mem_trialLog net (env j) j⟩
  · intro j hj hji
    constructor
    · exact (lookup_statEntries Metrics.ap env n 0 j (m j).ap).mpr
        ⟨m j, Nat.zero_le j, by omega, hok j hji, rfl⟩
    · exact (lookup_statEntries Metrics.ar env n 0 j (m j).ar).mpr
        ⟨m j, Nat.zero_le j, by omega, hok j hji, rfl⟩
  · exact lookup_statEntries_none Metrics.ap env n 0 i
      (by intro mm _ _ hm; rw [hfail] at hm; cases hm)
  · exact lookup_statEntries_none Metrics.ar env n 0 i
      (by intro mm _ _ hm; rw [hfail] at hm; cases hm)

/-- Environment for the C1 witness: trial 0 raises `RuntimeError`, all
other trials return fixed metrics. -/
def envC1 : ℕ → TrialEnv := fun j =>
  if j = 0 then ⟨100, "SGD", [("lr", 1/100)], [("lr", 1/100)], none,
                 .runtimeError "loss is nan"⟩
  else ⟨101, "Adam", [("lr", 1/50)], [("lr", 1/50)], none,
        .ok ⟨[1/2], [1/3]⟩⟩

/-- Metrics the non-failing trials of `envC1` return. -/
def mC1 : ℕ → Metrics := fun _ => ⟨[1/2], [1/3]⟩

/-- Witness for C1 at a concrete two-trial session whose first trial
fails with `RuntimeError`. -/
theorem trial_failure_isolated_witness :
    ∃ s, runSession "fasterrcnn" envC1 2 = .finished s
      ∧ (0, LogMsg.trainingFailed "loss is nan") ∈ s.log
      ∧ (∀ j, j < 2 → (j, LogMsg.startTime (envC1 j).runTime) ∈ s.log)
      ∧ (∀ j, j < 2 → j ≠ 0 →
          s.apTotals.lookup j = some (mC1 j).ap
          ∧ s.arTotals.lookup j = some (mC1 j).ar)
      ∧ s.apTotals.lookup 0 = none ∧ s.arTotals.lookup 0 = none :=
  trial_failure_isolated "fasterrcnn" envC1 2 0 "loss is nan" mC1
    (by decide) rfl (fun j hj => by simp [envC1, mC1, hj])

/-- C2: if the trials before `i` return normally and trial `i` raises
`KeyboardInterrupt`, the loop logs the termination message, no trial with
index above `i` is ever started (every log entry carries a trial number
at most `i`), the aggregate entries of the trials completed before `i`
are intact, and `main` still reaches the reporting step, producing the
report from exactly those aggregates and that log. -/
theorem cancellation_session_scoped (net : String) (env : ℕ → TrialEnv)
    (n i : ℕ) (m : ℕ → Metrics)
    (hi : i < n)
    (hkb : (env i).outcome = .keyboardInterrupt)
    (hok : ∀ j, j < i → (env j).outcome = .ok (m j)) :
    ∃ s, runSession net env n = .finished s
      ∧ (i, LogMsg.userTermination) ∈ s.log
      ∧ (∀ j r, (j, LogMsg.startTime r) ∈ s.log → j ≤ i)
      ∧ (∀ j, j < i →
          s.apTotals.lookup j = some (m j).ap
          ∧ s.arTotals.lookup j = some (m j).ar)
      ∧ mainResult net env n = some ⟨s.apTotals, s.arTotals, s.log⟩ := by
  have hpre : ∀ j, 0 ≤ j → j < i → proceedsB (env j).outcome = true := by
    intro j _ hj; rw [hok j hj]; rfl
  have hrun : runSession net env n =
      .finished ⟨sessionLogs net env 0 i ++ trialLog net (env i) i,
                 apEntries env 0 i, arEntries env 0 i⟩ := by
    rw [runSession, List.range_eq_range' n,
      aux_stop net env n 0 initState i (Nat.zero_le i) (by omega) hpre hkb]
    simp [initState]
  refine ⟨_, hrun, ?_, ?_, ?_, ?_⟩
  · exact List.mem_append.mpr (Or.inr (by simp [trialLog, trialMsgs, hkb]))
  · intro j r hjr
    rcases List.mem_append.mp hjr with h | h
    · rcases (mem_sessionLogs net env i 0 _).mp h with ⟨j2, _, hj2, hmem⟩
      have hfst : j = j2 := trialLog_fst net (env j2) j2 _ hmem
      omega
    · have hfst : j = i := trialLog_fst net (env i) i _ h
      omega
  · intro j hj
    constructor
    · exact (lookup_statEntries Metrics.ap env i 0 j (m j).ap).mpr
        ⟨m j, Nat.zero_le j, by omega, hok j hj, rfl⟩
    · exact (lookup_statEntries Metrics.ar env i 0 j (m j).ar).mpr
        ⟨m j, Nat.zero_le j, by omega, hok j hj, rfl⟩
  · rw [mainResult, hrun]
    rfl

/-- Environment for the C2 witness: trial 0 completes, trial 1 is
interrupted by the user, trials 2.. would complete if they ran. -/
def envC2 : ℕ → TrialEnv := fun j =>
  if j = 1 then ⟨200, "SGD", [("lr", 1/10)], [("lr", 1/10)], none,
                 .keyboardInterrupt⟩
  else ⟨201, "SGD", [("lr", 1/5)], [("lr", 1/5)], none, .ok ⟨[2/5], [3/5]⟩⟩

/-- Metrics the completed trials of `envC2` return. -/
def mC2 : ℕ → Metrics := fun _ => ⟨[2/5], [3/5]⟩

/-- Witness for C2 at a concrete three-trial session cancelled during
trial 1. -/
theorem cancellation_session_scoped_witness :
    ∃ s, runSession "fasterrcnn" envC2 3 = .finished s
      ∧ (1, LogMsg.userTermination) ∈ s.log
      ∧ (∀ j r, (j, LogMsg.startTime r) ∈ s.log → j ≤ 1)
      ∧ (∀ j, j < 1 →
          s.apTotals.lookup j = some (mC2 j).ap
          ∧ s.arTotals.lookup j = some (mC2 j).ar)
      ∧ mainResult "fasterrcnn" envC2 3 = some ⟨s.apTotals, s.arTotals, s.log⟩ :=
  cancellation_session_scoped "fasterrcnn" envC2 3 1 mC2
    (by decide) rfl (fun j hj => by
      have : j ≠ 1 := by omega
      simp [envC2, mC2, this])

/-- Helper for the C3 amended claim: when no trial's training raises an
exception outside `{RuntimeError, KeyboardInterrupt}`, the loop always
reaches a normal end. -/
lemma aux_no_other (net : String) (env : ℕ → TrialEnv) :
    ∀ l : List ℕ, ∀ s : SessionState,
    (∀ j ∈ l, isOtherError (env j).outcome = false) →
    ∃ s2, runTrialsAux net env l s = .finished s2 := by
  intro l
  induction l with
  | nil => intro s _; exact ⟨s, rfl⟩
  | cons i rest ih =>
      intro s h
      have hi := h i (List.mem_cons_self i rest)
      cases hout : (env i).outcome with
      | ok m =>
          rw [runTrialsAux, runTrial_ok net (env i) i s m hout]
          exact ih _ (fun j hj => h j (List.mem_cons_of_mem i hj))
      | runtimeError msg =>
          rw [runTrialsAux, runTrial_rte net (env i) i s msg hout]
          exact ih _ (fun j hj => h j (List.mem_cons_of_mem i hj))
      | keyboardInterrupt =>
          rw [runTrialsAux, runTrial_kb net (env i) i s hout]
          exact ⟨_, rfl⟩
      | otherError msg =>
          rw [hout] at hi; simp [isOtherError] at hi

/-- Environment refuting C3 as stated: trial 0's training call raises an
exception that is neither a `RuntimeError` nor a `KeyboardInterrupt`
(Python: e.g. a `ValueError`); trial 1 would complete if it ran. -/
def envAbort : ℕ → TrialEnv := fun j =>
  if j = 0 then ⟨300, "SGD", [], [], none, .otherError "invalid argument"⟩
  else ⟨301, "SGD", [], [], none, .ok ⟨[1], [1]⟩⟩

/-- Counterexample to C3 as stated: a non-cancellation error raised
during trial 0's training call escapes the trial-loop boundary and
terminates the session — the run aborts, `main` never reaches the
reporting step (`mainResult` is `none`), and trial 1 is never started
(every log entry carries trial number 0). `main` catches only
`RuntimeError` and `KeyboardInterrupt` (hparam_search.py lines 194-199),
so containment does not hold for arbitrary per-trial errors. -/
theorem uncaught_error_aborts_session :
    runSession "fasterrcnn" envAbort 2 =
      .aborted ⟨[(0, .startTime 300), (0, .modelName "fasterrcnn"),
                 (0, .optimizerChoice "SGD"), (0, .optimizerProperties [])],
                [], []⟩ "invalid argument"
    ∧ mainResult "fasterrcnn" envAbort 2 = none
    ∧ (∀ p ∈ (sessionState (runSession "fasterrcnn" envAbort 2)).log,
        p.1 = 0) := by
  refine ⟨by decide, by decide, by decide⟩

/-- C3 amended: the only errors contained at the trial-loop boundary are
`RuntimeError` (trial marked failed, loop continues) and
`KeyboardInterrupt` (session ends early by design); as long as no trial
raises any other exception, no error escapes the loop — the session
always reaches a normal end and the reporting step runs. -/
theorem session_survives_caught_outcomes (net : String) (env : ℕ → TrialEnv)
    (n : ℕ) (h : ∀ j, j < n → isOtherError (env j).outcome = false) :
    ∃ s, runSession net env n = .finished s
      ∧ mainResult net env n = some (finalize s) := by
  obtain ⟨s2, h2⟩ := aux_no_other net env (List.range n) initState
    (fun j hj => h j (List.mem_range.mp hj))
  have hrs : runSession net env n = .finished s2 := h2
  refine ⟨s2, hrs, ?_⟩
  rw [mainResult, hrs]

/-- Environment for the C3 amended witness: one completing trial and one
`RuntimeError` trial, no uncaught exception kinds. -/
def envC3 : ℕ → TrialEnv := fun j =>
  if j = 0 then ⟨310, "Adam", [], [], none, .ok ⟨[1/4], [1/4]⟩⟩
  else ⟨311, "Adam", [], [], none, .runtimeError "out of memory"⟩

/-- Witness for the amended C3 at a concrete two-trial session with one
completion and one caught failure. -/
theorem session_survives_caught_outcomes_witness :
    ∃ s, runSession "fasterrcnn" envC3 2 = .finished s
      ∧ mainResult "fasterrcnn" envC3 2 = some (finalize s) :=
  session_survives_caught_outcomes "fasterrcnn" envC3 2 (by decide)

/-- C4: after the trial loop ends — either by exhausting all `n` indices
or via a `KeyboardInterrupt` at the first non-proceeding index `t` — the
session's aggregate has, for each metric, an entry keyed by trial `j`
exactly when trial `j` ran and its training call returned normally, and
that entry is the per-epoch series the call returned for that metric;
trials that raised contribute nothing. -/
theorem aggregate_iff_completed (net : String) (env : ℕ → TrialEnv)
    (n t : ℕ)
    (htn : t ≤ n)
    (hproc : ∀ j, j < t → proceedsB (env j).outcome = true)
    (hend : t = n ∨ (t < n ∧ (env t).outcome = .keyboardInterrupt)) :
    ∃ s, runSession net env n = .finished s
      ∧ (∀ j v, s.apTotals.lookup j = some v ↔
          ∃ m : Metrics, j < t ∧ (env j).outcome = .ok m ∧ v = m.ap)
      ∧ (∀ j v, s.arTotals.lookup j = some v ↔
          ∃ m : Metrics, j < t ∧ (env j).outcome = .ok m ∧ v = m.ar) := by
  have hrun : ∃ L, runSession net env n =
      .finished ⟨L, apEntries env 0 t, arEntries env 0 t⟩ := by
    rcases hend with rfl | ⟨htlt, hkb⟩
    · refine ⟨sessionLogs net env 0 t, ?_⟩
      rw [runSession, List.range_eq_range' t,
        aux_proceed net env t 0 initState (fun j _ hj => hproc j (by omega))]
      simp [initState]
    · refine ⟨sessionLogs net env 0 t ++ trialLog net (env t) t, ?_⟩
      rw [runSession, List.range_eq_range' n,
        aux_stop net env n 0 initState t (Nat.zero_le t) (by omega)
          (fun j _ hj => hproc j hj) hkb]
      simp [initState]
  rcases hrun with ⟨L, hrun⟩
  refine ⟨_, hrun, ?_, ?_⟩
  · intro j v
    show (apEntries env 0 t).lookup j = some v ↔ _
    rw [show apEntries env 0 t = statEntries Metrics.ap env 0 t from rfl,
      lookup_statEntries Metrics.ap env t 0 j v]
    constructor
    · rintro ⟨mm, _, h2, hm, rfl⟩; exact ⟨mm, by omega, hm, rfl⟩
    · rintro ⟨mm, h1, hm, rfl⟩; exact ⟨mm, Nat.zero_le j, by omega, hm, rfl⟩
  · intro j v
    show (arEntries env 0 t).lookup j = some v ↔ _
    rw [show arEntries env 0 t = statEntries Metrics.ar env 0 t from rfl,
      lookup_statEntries Metrics.ar env t 0 j v]
    constructor
    · rintro ⟨mm, _, h2, hm, rfl⟩; exact ⟨mm, by omega, hm, rfl⟩
    · rintro ⟨mm, h1, hm, rfl⟩; exact ⟨mm, Nat.zero_le j, by omega, hm, rfl⟩

/-- Environment for the C4 witness: trial 0 completes, trial 1 fails
with a caught `RuntimeError`, trial 2 completes. -/
def envC4 : ℕ → TrialEnv := fun j =>
  if j = 1 then ⟨401, "SGD", [], [], none, .runtimeError "diverged"⟩
  else ⟨400, "SGD", [], [], none, .ok ⟨[7/10], [4/5]⟩⟩

/-- Witness for C4 at a concrete three-trial session that runs to the
end (`t = n = 3`). -/
theorem aggregate_iff_completed_witness :
    ∃ s, runSession "fasterrcnn" envC4 3 = .finished s
      ∧ (∀ j v, s.apTotals.lookup j = some v ↔
          ∃ m : Metrics, j < 3 ∧ (envC4 j).outcome = .ok m ∧ v = m.ap)
      ∧ (∀ j v, s.arTotals.lookup j = some v ↔
          ∃ m : Metrics, j < 3 ∧ (envC4 j).outcome = .ok m ∧ v = m.ar) :=
  aggregate_iff_completed "fasterrcnn" envC4 3 3 (by decide) (by decide)
    (Or.inl rfl)

/-- The session state carried by a step result, whichever way the
iteration ended. -/
def stepState : StepResult → SessionState
  | .next s => s
  | .stop s => s
  | .raised s _ => s

lemma stepState_runTrial_log (net : String) (e : TrialEnv) (i : ℕ)
    (s : SessionState) :
    (stepState (runTrial net e i s)).log = s.log ++ trialLog net e i := by
  cases hout : e.outcome with
  | ok m =>
      rw [runTrial_ok net e i s m hout]
      rfl
  | runtimeError msg =>
      rw [runTrial_rte net e i s msg hout]
      rfl
  | keyboardInterrupt =>
      rw [runTrial_kb net e i s hout]
      rfl
  | otherError msg =>
      rw [runTrial_other net e i s msg hout]
      rfl


/-- Environment exhibiting the C5 divergence: the sampled (resolved)
option values are `lr = 1/2`, but the constructed optimizer object
reports `defaults` containing an extra constructor default
(`nesterov = 0`), as a torch optimizer does. -/
def envReportA : ℕ → TrialEnv := fun _ =>
  ⟨500, "SGD", [("lr", 2)], [("lr", 2), ("nesterov", 0)], none,
   .ok ⟨[1], [1]⟩⟩

/-- Like `envReportA` but the constructed object reports different
defaults while the sampled values are identical. -/
def envReportB : ℕ → TrialEnv := fun _ =>
  ⟨500, "SGD", [("lr", 2)], [("lr", 2)], none, .ok ⟨[1], [1]⟩⟩

/-- Counterexample to C5 as stated: what `main` writes as the trial's
"optimizer properties" line is `optimizer.defaults`, the constructed
object's self-report (hparam_search.py line 162) — not the sampled
values verbatim.  Concretely: with the same sampled values, the log
contains the object's reported defaults, contains no line holding the
resolved map itself, and changes when only the object's self-report
changes. -/
theorem logged_values_not_resolved_verbatim :
    (envReportA 0).resolved = (envReportB 0).resolved
    ∧ (0, LogMsg.optimizerProperties [("lr", 2), ("nesterov", 0)]) ∈
        (sessionState (runSession "fasterrcnn" envReportA 1)).log
    ∧ (0, LogMsg.optimizerProperties ((envReportA 0).resolved)) ∉
        (sessionState (runSession "fasterrcnn" envReportA 1)).log
    ∧ runSession "fasterrcnn" envReportA 1 ≠
        runSession "fasterrcnn" envReportB 1 := by
  refine ⟨rfl, by decide, by decide, by decide⟩

/-- C5 amended: for every trial, the kind name recorded to the log is
the sampled optimizer spec's name, and the recorded parameter-values
line is the constructed object's self-reported `defaults` dict — the
record tracks the object's report, not the sampled resolved-values map. -/
theorem logged_values_are_object_report (net : String) (e : TrialEnv)
    (i : ℕ) (s : SessionState) :
    (i, LogMsg.optimizerChoice e.optName) ∈
      (stepState (runTrial net e i s)).log
    ∧ (i, LogMsg.optimizerProperties e.reportedDefaults) ∈
      (stepState (runTrial net e i s)).log := by
  rw [stepState_runTrial_log]
  constructor
  · exact List.mem_append.mpr (Or.inr (by simp [trialLog, trialMsgs]))
  · exact List.mem_append.mpr (Or.inr (by simp [trialLog, trialMsgs]))

/-- Splitting a window of per-trial logs. -/
lemma sessionLogs_add (net : String) (env : ℕ → TrialEnv) :
    ∀ k1 k2 i, sessionLogs net env i (k1 + k2) =
      sessionLogs net env i k1 ++ sessionLogs net env (i + k1) k2 := by
  intro k1
  induction k1 with
  | zero => intro k2 i; simp [sessionLogs]
  | succ k1 ih =>
      intro k2 i
      rw [Nat.succ_add, sessionLogs, sessionLogs, ih k2 (i + 1),
        List.append_assoc]
      have harith : i + 1 + k1 = i + (k1 + 1) := by omega
      rw [harith]

/-- Environment exhibiting the C6 divergence: trial 0's training fails
mid-run with a `RuntimeError`, the sampled values are `lr = 1/2`, and
the constructed object self-reports entirely different defaults. -/
def envAudit : ℕ → TrialEnv := fun _ =>
  ⟨600, "SGD", [("lr", 2)], [("momentum", 9)], none,
   .runtimeError "cuda error"⟩

/-- Counterexample to C6 as stated: in a session whose trial 0 fails
during training, the log holds the object-reported defaults line but no
line holding the sampled resolved values — so it is not the resolved
parameter values that are recorded before training. -/
theorem resolved_values_absent_from_log :
    (envAudit 0).outcome = .runtimeError "cuda error"
    ∧ (envAudit 0).resolved = [("lr", 2)]
    ∧ (0, LogMsg.optimizerProperties [("momentum", 9)]) ∈
        (sessionState (runSession "fasterrcnn" envAudit 1)).log
    ∧ (0, LogMsg.optimizerProperties [("lr", 2)]) ∉
        (sessionState (runSession "fasterrcnn" envAudit 1)).log :=
  ⟨rfl, rfl, by decide, by decide⟩

/-- C6 amended: for every trial that fails with a caught `RuntimeError`
(in a session where every trial's outcome is caught-or-normal), the
sampled optimizer kind name and the constructed optimizer's
self-reported defaults appear in the session log, in this order, before
the trial's failure line — so a failure raised during training still
leaves that trial's logged configuration in the run log.  (No scheduler
line exists because the source's scheduler choice list is `[None]`,
hparam_search.py lines 122-133.) -/
theorem config_logged_before_failure (net : String) (env : ℕ → TrialEnv)
    (n i : ℕ) (msg : String)
    (hi : i < n)
    (hall : ∀ j, j < n → proceedsB (env j).outcome = true)
    (hfail : (env i).outcome = .runtimeError msg) :
    ∃ s, runSession net env n = .finished s
      ∧ List.Sublist
          [(i, LogMsg.optimizerChoice (env i).optName),
           (i, LogMsg.optimizerProperties (env i).reportedDefaults),
           (i, LogMsg.trainingFailed msg)] s.log := by
  have hrun : runSession net env n =
      .finished ⟨sessionLogs net env 0 n, apEntries env 0 n, arEntries env 0 n⟩ := by
    rw [runSession, List.range_eq_range' n,
      aux_proceed net env n 0 initState (fun j _ hj => hall j (by omega))]
    simp [initState]
  refine ⟨_, hrun, ?_⟩
  obtain ⟨k, hk⟩ : ∃ k, n = i + (k + 1) := ⟨n - i - 1, by omega⟩
  have hsplit : sessionLogs net env 0 n =
      sessionLogs net env 0 i ++
        (trialLog net (env i) i ++ sessionLogs net env (i + 1) k) := by
    calc sessionLogs net env 0 n
        = sessionLogs net env 0 (i + (k + 1)) := by rw [← hk]
      _ = sessionLogs net env 0 i ++ sessionLogs net env (0 + i) (k + 1) :=
          sessionLogs_add net env i (k + 1) 0
      _ = sessionLogs net env 0 i ++
            (trialLog net (env i) i ++ sessionLogs net env (i + 1) k) := by
          rw [Nat.zero_add, sessionLogs]
  rw [show (⟨sessionLogs net env 0 n, apEntries env 0 n, arEntries env 0 n⟩ :
      SessionState).log = sessionLogs net env 0 n from rfl, hsplit]
  have hsub : List.Sublist
      [(i, LogMsg.optimizerChoice (env i).optName),
       (i, LogMsg.optimizerProperties (env i).reportedDefaults),
       (i, LogMsg.trainingFailed msg)] (trialLog net (env i) i) := by
    cases hsched : (env i).sched with
    | none =>
        rw [show trialLog net (env i) i =
            [(i, LogMsg.startTime (env i).runTime), (i, LogMsg.modelName net),
             (i, LogMsg.optimizerChoice (env i).optName),
             (i, LogMsg.optimizerProperties (env i).reportedDefaults),
             (i, LogMsg.trainingFailed msg)] from by
          simp [trialLog, trialMsgs, hfail, hsched]]
        exact .cons _ (.cons _ (.cons₂ _ (.cons₂ _ (.cons₂ _ .slnil))))
    | some sch =>
        rw [show trialLog net (env i) i =
            [(i, LogMsg.startTime (env i).runTime), (i, LogMsg.modelName net),
             (i, LogMsg.optimizerChoice (env i).optName),
             (i, LogMsg.optimizerProperties (env i).reportedDefaults),
             (i, LogMsg.schedulerChoice sch.name),
             (i, LogMsg.schedulerProperties sch.props),
             (i, LogMsg.trainingFailed msg)] from by
          simp [trialLog, trialMsgs, hfail, hsched]]
        exact .cons _ (.cons _ (.cons₂ _ (.cons₂ _
          (.cons _ (.cons _ (.cons₂ _ .slnil))))))
  exact (hsub.trans (List.sublist_append_left _ _)).trans
    (List.sublist_append_right _ _)

/-- Environment for the C6 amended witness: a single trial whose
training fails with `RuntimeError`. -/
def envC6 : ℕ → TrialEnv := fun _ =>
  ⟨610, "AdamW", [("lr", 4)], [("lr", 4), ("eps", 5)], none,
   .runtimeError "loss is nan"⟩

/-- Witness for the amended C6 at a concrete one-trial failing session. -/
theorem config_logged_before_failure_witness :
    ∃ s, runSession "fasterrcnn" envC6 1 = .finished s
      ∧ List.Sublist
          [(0, LogMsg.optimizerChoice (envC6 0).optName),
           (0, LogMsg.optimizerProperties (envC6 0).reportedDefaults),
           (0, LogMsg.trainingFailed "loss is nan")] s.log :=
  config_logged_before_failure "fasterrcnn" envC6 1 0 "loss is nan"
    (by decide) (by decide) rfl

/-! ## Claim theorem for the SGD search space (C8) -/

/-- C8: materializing the SGD hyperparameter spec always yields
`0.0005 ≤ lr ≤ 0.1` and `momentum = 0` or `0.5 ≤ momentum ≤ 0.99`,
given the spec's definitions of the LogUniform (`RandomExponential`) and
LogUniformOffset (`RandomExponentialDiff`) samplers. -/
theorem sgd_materialized_bounds (lr m : ℝ)
    (hlr : IsSample sgdLrDist lr) (hm : IsSample sgdMomentumDist m) :
    (0.0005 ≤ lr ∧ lr ≤ 0.1) ∧ (m = 0 ∨ (0.5 ≤ m ∧ m ≤ 0.99)) := by
  have hlr2 : IsSample (.randomExponential 0.0005 0.1) lr := hlr
  have hm2 : IsSample
      (.randomHPChoices [.lit 0, .dist (.randomExponentialDiff 1.0 0.01 0.5)]) m := hm
  constructor
  · cases hlr2 with
    | exponential h1 h2 =>
        constructor
        · calc (0.0005 : ℝ) = Real.exp (Real.log 0.0005) :=
                (Real.exp_log (by norm_num)).symm
            _ ≤ Real.exp _ := Real.exp_le_exp.mpr h1
        · calc Real.exp _ ≤ Real.exp (Real.log 0.1) := Real.exp_le_exp.mpr h2
            _ = 0.1 := Real.exp_log (by norm_num)
  · cases hm2 with
    | choice hmem hent =>
        rcases List.mem_cons.mp hmem with h | h
        · rw [h] at hent
          cases hent
          left; rfl
        · rw [List.mem_singleton.mp h] at hent
          cases hent with
          | dist hs =>
              cases hs with
              | @exponentialDiff c lo hi u h1 h2 =>
                  have e1 : Real.exp u ≤ 0.5 := by
                    calc Real.exp u ≤ Real.exp (Real.log 0.5) :=
                          Real.exp_le_exp.mpr h2
                      _ = 0.5 := Real.exp_log (by norm_num)
                  have e2 : (0.01 : ℝ) ≤ Real.exp u := by
                    calc (0.01 : ℝ) = Real.exp (Real.log 0.01) :=
                          (Real.exp_log (by norm_num)).symm
                      _ ≤ Real.exp u := Real.exp_le_exp.mpr h1
                  right
                  constructor
                  · linarith
                  · linarith

/-- Witness for C8 at the concrete samples `lr = 0.1` (the top of the
log-uniform range) and `momentum = 0` (the first Choice alternative). -/
theorem sgd_materialized_bounds_witness :
    ((0.0005 : ℝ) ≤ 0.1 ∧ (0.1 : ℝ) ≤ 0.1)
    ∧ ((0 : ℝ) = 0 ∨ ((0.5 : ℝ) ≤ 0 ∧ (0 : ℝ) ≤ 0.99)) := by
  refine sgd_materialized_bounds 0.1 0 ?_ ?_
  · have h3 : Real.exp (Real.log 0.1) = 0.1 := Real.exp_log (by norm_num)
    have h1 : Real.log 0.0005 ≤ Real.log 0.1 := by
      apply Real.log_le_log <;> norm_num
    exact h3 ▸ IsSample.exponential h1 (le_refl _)
  · exact IsSample.choice (List.mem_cons_self _ _) IsEntrySample.lit

/-! ## Label handling (predict_spin.py lines 213-229, visualize.py
lines 65-81 and 112-113)

The label file is modelled as `none` (missing file, `os.path.isfile`
false) or `some lines`, where `lines` is the result of Python's
`open(path).read().splitlines()` — the file's lines in order, `[]` for an
empty file. -/

/-- The three ways the label-loading phase of `main` can go: return
early because the file is missing (predict_spin.py line 216, visualize.py
line 68), return early because no categories were found (predict_spin.py
line 223, visualize.py line 75), or proceed with the label list after
`labels.insert(0, "background")` and the class count `len(labels)` used
for model construction (predict_spin.py lines 226 and 63-69,
visualize.py lines 78 and 113/124). -/
inductive LabelPhase : Type where
  | missingFile
  | emptyLabels
  | proceed (labels : List String) (numClasses : ℕ)
deriving DecidableEq

/-- Label-loading phase of predict_spin.py `main` (lines 213-229): on
`proceed`, the labels are handed to `display_images`, which builds the
model with `len(labels)` classes and uses the list for rendering. -/
def predictLabelPhase (file : Option (List String)) : LabelPhase :=
  match file with
  | none => .missingFile
  | some lines =>
      if lines.length = 0 then .emptyLabels
      else
        let labels := "background" :: lines
        .proceed labels labels.length

/-- Label-loading phase of visualize.py `main` (lines 65-81): on
`proceed`, `num_classes = len(labels)` (line 113) is passed to the model
factory (line 124) and the list is used for rendering. -/
def visualizeLabelPhase (file : Option (List String)) : LabelPhase :=
  match file with
  | none => .missingFile
  | some lines =>
      if lines.length = 0 then .emptyLabels
      else
        let labels := "background" :: lines
        .proceed labels labels.length

/-- C9: for a non-empty label file both entry points proceed with the
label list `"background"` at index 0 followed by the file's lines in
their original order, and a model class count of the number of file
lines plus one; for a missing or empty label file both return early, so
no model is constructed. -/
theorem labels_background_first (lines : List String) (h : lines ≠ []) :
    predictLabelPhase (some lines) =
      .proceed ("background" :: lines) (lines.length + 1)
    ∧ visualizeLabelPhase (some lines) =
      .proceed ("background" :: lines) (lines.length + 1)
    ∧ ("background" :: lines).head? = some "background"
    ∧ predictLabelPhase none = .missingFile
    ∧ visualizeLabelPhase none = .missingFile
    ∧ predictLabelPhase (some []) = .emptyLabels
    ∧ visualizeLabelPhase (some []) = .emptyLabels := by
  have hlen : lines.length ≠ 0 := fun hl => h (List.length_eq_zero.mp hl)
  refine ⟨?_, ?_, rfl, rfl, rfl, rfl, rfl⟩ <;>
    simp [predictLabelPhase, visualizeLabelPhase, hlen]

/-- Witness for C9 at the concrete one-line label file `["spin"]`. -/
theorem labels_background_first_witness :
    predictLabelPhase (some ["spin"]) =
      .proceed ("background" :: ["spin"]) (["spin"].length + 1)
    ∧ visualizeLabelPhase (some ["spin"]) =
      .proceed ("background" :: ["spin"]) (["spin"].length + 1)
    ∧ ("background" :: ["spin"]).head? = some "background"
    ∧ predictLabelPhase none = .missingFile
    ∧ visualizeLabelPhase none = .missingFile
    ∧ predictLabelPhase (some []) = .emptyLabels
    ∧ visualizeLabelPhase (some []) = .emptyLabels :=
  labels_background_first ["spin"] (by decide)

/-! ## Detection filtering (predict_spin.py `display_images`
lines 123-131, visualize.py `main` lines 181-189)

The model's output dict `outputs[0]` is modelled by its three
equal-length sequences `boxes`, `labels` and `scores`; the box type is an
opaque parameter.  Scores are rationals (exact stand-ins for the float
comparisons). -/

/-- The list comprehension
`[(boxes[j], labels[j], scores[j]) for j in range(len(boxes))
  if scores[j] > threshold and labels[j] > 0]` of predict_spin.py
lines 124-128 and, identically, visualize.py lines 182-186. -/
def filtered_output {α : Type} (threshold : ℚ) (boxes : List α)
    (labelIds : List ℕ) (scores : List ℚ) : List (α × ℕ × ℚ) :=
  (List.range boxes.length).filterMap fun j =>
    match boxes[j]?, labelIds[j]?, scores[j]? with
    | some b, some l, some s =>
        if threshold < s ∧ 0 < l then some (b, l, s) else none
    | _, _, _ => none

/-- The unzip step
`zip(*filtered_output) if len(filtered_output) > 0 else ([], [], [])`
of predict_spin.py lines 130-132 and visualize.py lines 188-190. -/
def unzipDetections {α : Type} (filtered : List (α × ℕ × ℚ)) :
    List α × List ℕ × List ℚ :=
  if 0 < filtered.length then
    (filtered.map Prod.fst, filtered.map (fun p => p.2.1),
     filtered.map (fun p => p.2.2))
  else ([], [], [])

/-- C10: the filtered detection set contains exactly the indexed model
outputs whose score is strictly above the threshold and whose label id
is nonzero (background excluded); and when the filtered set is empty the
unzip step yields three empty sequences (which the rendering call then
consumes). -/
theorem filtered_detections_spec {α : Type} (threshold : ℚ)
    (boxes : List α) (labelIds : List ℕ) (scores : List ℚ)
    (hl : labelIds.length = boxes.length)
    (hs : scores.length = boxes.length) :
    (∀ b l s, (b, l, s) ∈ filtered_output threshold boxes labelIds scores ↔
       ∃ j, j < boxes.length ∧ boxes[j]? = some b ∧ labelIds[j]? = some l ∧
         scores[j]? = some s ∧ threshold < s ∧ 0 < l)
    ∧ (filtered_output threshold boxes labelIds scores = [] →
        unzipDetections (filtered_output threshold boxes labelIds scores) =
          ([], [], [])) := by
  constructor
  · intro b l s
    rw [filtered_output, List.mem_filterMap]
    constructor
    · rintro ⟨j, hj, hf⟩
      rw [List.mem_range] at hj
      have hjl : j < labelIds.length := by omega
      have hjs : j < scores.length := by omega
      rw [List.getElem?_eq_getElem hj, List.getElem?_eq_getElem hjl,
        List.getElem?_eq_getElem hjs] at hf
      by_cases hcond : threshold < scores[j] ∧ 0 < labelIds[j]
      · rw [show (match (some boxes[j] : Option α), (some labelIds[j] : Option ℕ),
              (some scores[j] : Option ℚ) with
            | some b2, some l2, some s2 =>
                if threshold < s2 ∧ 0 < l2 then some (b2, l2, s2) else none
            | _, _, _ => none) =
            (if threshold < scores[j] ∧ 0 < labelIds[j] then
              some (boxes[j], labelIds[j], scores[j]) else none) from rfl,
          if_pos hcond] at hf
        have hb : boxes[j] = b := congrArg Prod.fst (Option.some_inj.mp hf)
        have hl2 : labelIds[j] = l :=
          congrArg (fun p => p.2.1) (Option.some_inj.mp hf)
        have hs2 : scores[j] = s :=
          congrArg (fun p => p.2.2) (Option.some_inj.mp hf)
        refine ⟨j, hj, ?_, ?_, ?_, ?_, ?_⟩
        · rw [List.getElem?_eq_getElem hj, hb]
        · rw [List.getElem?_eq_getElem hjl, hl2]
        · rw [List.getElem?_eq_getElem hjs, hs2]
        · rw [← hs2]; exact hcond.1
        · rw [← hl2]; exact hcond.2
      · rw [show (match (some boxes[j] : Option α), (some labelIds[j] : Option ℕ),
              (some scores[j] : Option ℚ) with
            | some b2, some l2, some s2 =>
                if threshold < s2 ∧ 0 < l2 then some (b2, l2, s2) else none
            | _, _, _ => none) =
            (if threshold < scores[j] ∧ 0 < labelIds[j] then
              some (boxes[j], labelIds[j], scores[j]) else none) from rfl,
          if_neg hcond] at hf
        cases hf
    · rintro ⟨j, hj, hb, hlab, hsc, hth, hpos⟩
      refine ⟨j, List.mem_range.mpr hj, ?_⟩
      rw [hb, hlab, hsc]
      show (if threshold < s ∧ 0 < l then some (b, l, s) else none) = some (b, l, s)
      rw [if_pos ⟨hth, hpos⟩]
  · intro h
    rw [h]
    rfl

/-- Witness for C10 at a concrete output batch of two detections, the
second of which is a background box. -/
theorem filtered_detections_spec_witness :
    (∀ b l s, (b, l, s) ∈ filtered_output (1 : ℚ) [10, 20] [1, 0] [3, 2] ↔
       ∃ j, j < [10, 20].length ∧ ([10, 20] : List ℕ)[j]? = some b ∧
         ([1, 0] : List ℕ)[j]? = some l ∧ ([3, 2] : List ℚ)[j]? = some s ∧
         (1 : ℚ) < s ∧ 0 < l)
    ∧ (filtered_output (1 : ℚ) [10, 20] [1, 0] [3, 2] = [] →
        unzipDetections (filtered_output (1 : ℚ) [10, 20] [1, 0] [3, 2]) =
          ([], [], [])) :=
  filtered_detections_spec (1 : ℚ) [10, 20] [1, 0] [3, 2]
    (by decide) (by decide)

end Boja
